import Mathlib

/-!
Shallow embedding of the staking decision engine of the pancake-prediction
repository (src/src/modules/prediction/prediction.service.ts, final
revision, the `PredictionService` class with MODIFIED_MARTINGALE strategy).

Conventions of the embedding:
* BigInt amounts are non-negative throughout the program (bet sizes,
  balances, pool sizes), so they are modelled as `Nat`; BigInt division
  truncates, which matches `Nat` division on non-negative values.
* Prices (`lockPrice`, `closePrice`) and wall-clock timestamps are
  modelled as `Int` (JS numbers / BigInt that are only compared).
* The service fields `baseBetAmount`, `maxBetAmount`, `totalBankroll`
  consulted by the staking policy are grouped in `RiskCtx`.
* Asynchronous failures (insufficient balance, a rejected bet
  transaction, a failed `tx.wait(1)`, a failed claim transaction) are
  modelled by oracle flags in `TxEnv` / `SettleEnv`.
* The position heuristic `calculateBetPosition` mixes floating point and
  `Math.random()`; its result is passed as an explicit `Position`
  argument to the decision-loop step, since no claim depends on which
  side is chosen.
-/

/-- Betting side, the TS union type `'Bull' | 'Bear'`. -/
inductive Position where
  | Bull : Position
  | Bear : Position
deriving Repr, DecidableEq

/-- Round snapshot, the TS `Round` interface (the derived `canBet`
field is recomputed from `now` where needed). -/
structure Round where
  epoch : Nat
  startTimestamp : Int
  lockTimestamp : Int
  closeTimestamp : Int
  lockPrice : Int
  closePrice : Int
  totalAmount : Nat
  bullAmount : Nat
  bearAmount : Nat
  oracleCalled : Bool
deriving Repr, DecidableEq

/-- One stake stream, the TS `BetStream` interface. -/
structure BetStream where
  id : Nat
  currentAmount : Nat
  lossCount : Nat
  lastEpoch : Option Nat
  positionHistory : List Position
  consecutiveLosses : Nat
  maxConsecutiveLosses : Nat
  dailyMaxConsecutiveLosses : Nat
  active : Bool
  winCount : Nat
  totalBets : Nat
  totalWins : Nat
  recoveryMode : Bool
deriving Repr, DecidableEq

/-- One ledger entry, the TS `BetHistory` interface. -/
structure BetHistory where
  epoch : Nat
  position : Position
  amount : Nat
  claimed : Bool
  streamId : Nat
deriving Repr, DecidableEq

/-- The TS `StrategyType` enum. -/
inductive StrategyType where
  | fixed_percentage : StrategyType
  | modified_martingale : StrategyType
deriving Repr, DecidableEq

/-- `STRATEGY_TYPE = StrategyType.MODIFIED_MARTINGALE` in the service. -/
def STRATEGY_TYPE : StrategyType := StrategyType.modified_martingale

/-- `FLAT_BET_COUNT = 3`. -/
def FLAT_BET_COUNT : Nat := 3

/-- `MARTINGALE_MULTIPLIER = 21n` (2.1x, applied as `* 21n / 10n`). -/
def MARTINGALE_MULTIPLIER : Nat := 21

/-- `FIXED_PERCENTAGE = 3`. -/
def FIXED_PERCENTAGE : Nat := 3

/-- `MAX_RISK_PERCENTAGE = 40`. -/
def MAX_RISK_PERCENTAGE : Nat := 40

/-- `MAX_CONSECUTIVE_LOSSES = 12`. -/
def MAX_CONSECUTIVE_LOSSES : Nat := 12

/-- `STREAM_COOLDOWN_ROUNDS = 5`. -/
def STREAM_COOLDOWN_ROUNDS : Nat := 5

/-- `BET_SECONDS_BEFORE_END = 8`. -/
def BET_SECONDS_BEFORE_END : Int := 8

/-- `MAX_STREAMS = 2`. -/
def MAX_STREAMS : Nat := 2

/-- The service fields read by the staking policy: `this.baseBetAmount`,
`this.maxBetAmount`, `this.totalBankroll`. -/
structure RiskCtx where
  baseBetAmount : Nat
  maxBetAmount : Nat
  totalBankroll : Nat
deriving Repr, DecidableEq

/-- `updateMaxBetAmount`: `maxBetAmount = totalBankroll *
BigInt(Math.floor(MAX_RISK_PERCENTAGE * 100)) / 10000n`. -/
def updateMaxBetAmount (totalBankroll : Nat) : Nat :=
  totalBankroll * (MAX_RISK_PERCENTAGE * 100) / 10000

/-- `calculateBaseBetAmount`: percentage of bankroll for the fixed
strategy, `this.baseBetAmount` for the martingale strategy. -/
def calculateBaseBetAmount (ctx : RiskCtx) : Nat :=
  match STRATEGY_TYPE with
  | StrategyType.fixed_percentage =>
      ctx.totalBankroll * (FIXED_PERCENTAGE * 100) / 10000
  | StrategyType.modified_martingale => ctx.baseBetAmount

/-- The `for (let i = 0; i <= lossStreak; i++)` body of
`calculateNextBetAmount`: multiply by 2.1 each iteration, returning
`maxBetAmount` as soon as the escalated value exceeds `maxBetAmount` or
exceeds `totalBankroll / 10n` (the code returns `maxBetAmount`, not the
10% bound, in the second case). `iters` is `lossStreak + 1`. -/
def escalateLoop (ctx : RiskCtx) : Nat → Nat → Nat
  | 0, calculatedAmount => calculatedAmount
  | n + 1, calculatedAmount =>
      let a := calculatedAmount * MARTINGALE_MULTIPLIER / 10
      if a > ctx.maxBetAmount then ctx.maxBetAmount
      else if a > ctx.totalBankroll / 10 then ctx.maxBetAmount
      else escalateLoop ctx n a

/-- `calculateNextBetAmount(stream)`: flat below `FLAT_BET_COUNT`
losses, escalation loop from the base amount otherwise. -/
def calculateNextBetAmount (ctx : RiskCtx) (stream : BetStream) : Nat :=
  let baseAmount := calculateBaseBetAmount ctx
  match STRATEGY_TYPE with
  | StrategyType.fixed_percentage => baseAmount
  | StrategyType.modified_martingale =>
      if stream.lossCount ≥ FLAT_BET_COUNT then
        escalateLoop ctx (stream.lossCount - FLAT_BET_COUNT + 1) baseAmount
      else baseAmount

/-- `checkSingleBetResult(bet, round)`. -/
def checkSingleBetResult (bet : BetHistory) (round : Round) : Bool :=
  if !round.oracleCalled then false
  else
    (decide (bet.position = Position.Bull) &&
      decide (round.closePrice > round.lockPrice)) ||
    (decide (bet.position = Position.Bear) &&
      decide (round.closePrice < round.lockPrice))

/-- The `positionHistory = [...positionHistory.slice(-4), bet.position]`
update at the end of each settlement iteration. -/
def pushPositionHistory (l : List Position) (p : Position) : List Position :=
  l.drop (l.length - 4) ++ [p]

/-- The per-stream mutations of one iteration of the `for (const bet of
betsForRound)` loop in `handleRoundResult`, in source order: the
`totalBets` increment, the win/loss statistics branch (with deactivation
on reaching `MAX_CONSECUTIVE_LOSSES`), the amount/lossCount update, and
the position-history push. -/
def settleStream (ctx : RiskCtx) (isWin : Bool) (pos : Position)
    (s : BetStream) : BetStream :=
  let s0 := { s with totalBets := s.totalBets + 1 }
  let s1 :=
    if isWin then
      { s0 with totalWins := s0.totalWins + 1, winCount := s0.winCount + 1,
                consecutiveLosses := 0, recoveryMode := false }
    else
      let t := { s0 with consecutiveLosses := s0.consecutiveLosses + 1,
                         winCount := 0 }
      let t := { t with
        maxConsecutiveLosses := max t.maxConsecutiveLosses t.consecutiveLosses,
        dailyMaxConsecutiveLosses :=
          max t.dailyMaxConsecutiveLosses t.consecutiveLosses }
      if t.consecutiveLosses ≥ MAX_CONSECUTIVE_LOSSES then
        { t with active := false, recoveryMode := true }
      else t
  let s2 :=
    if isWin then
      { s1 with currentAmount := calculateBaseBetAmount ctx, lossCount := 0 }
    else
      let t := { s1 with lossCount := s1.lossCount + 1 }
      { t with currentAmount := calculateNextBetAmount ctx t }
  { s2 with positionHistory := pushPositionHistory s2.positionHistory pos }

/-- The stream together with its `streamCooldowns` entry: a loss that
reaches `MAX_CONSECUTIVE_LOSSES` arms the cooldown to
`STREAM_COOLDOWN_ROUNDS` (`this.streamCooldowns[stream.id] =
this.STREAM_COOLDOWN_ROUNDS` in the deactivation branch). -/
def settleStreamCd (ctx : RiskCtx) (isWin : Bool) (pos : Position)
    (p : BetStream × Nat) : BetStream × Nat :=
  (settleStream ctx isWin pos p.1,
   if !isWin && decide (p.1.consecutiveLosses + 1 ≥ MAX_CONSECUTIVE_LOSSES)
   then STREAM_COOLDOWN_ROUNDS else p.2)

/-- `active = true, currentAmount = calculateBaseBetAmount(),
consecutiveLosses = 0, lossCount = 0, recoveryMode = false` — the
reactivation assignments in the `LockRound` handler. -/
def reactivateStream (ctx : RiskCtx) (s : BetStream) : BetStream :=
  { s with active := true, currentAmount := calculateBaseBetAmount ctx,
           consecutiveLosses := 0, lossCount := 0, recoveryMode := false }

/-- Effect of one `LockRound` event on one stream and its cooldown
entry: if the entry is positive it is decremented, and on hitting
exactly 0 the stream is reactivated. -/
def lockStream (ctx : RiskCtx) (p : BetStream × Nat) : BetStream × Nat :=
  if p.2 > 0 then
    let cd := p.2 - 1
    if cd = 0 then (reactivateStream ctx p.1, 0) else (p.1, cd)
  else p

/-- `n` successive `LockRound` events applied to one stream. -/
def lockIter (ctx : RiskCtx) : Nat → BetStream × Nat → BetStream × Nat
  | 0, p => p
  | n + 1, p => lockIter ctx n (lockStream ctx p)

/-- A freshly initialized stream as built in `onModuleInit`. -/
def initStream (ctx : RiskCtx) (id : Nat) : BetStream :=
  { id := id, currentAmount := ctx.baseBetAmount, lossCount := 0,
    lastEpoch := none, positionHistory := [], consecutiveLosses := 0,
    maxConsecutiveLosses := 0, dailyMaxConsecutiveLosses := 0,
    active := true, winCount := 0, totalBets := 0, totalWins := 0,
    recoveryMode := false }

/-- A sequence of settlements of one stream's bets (`true` = win). -/
def runSettles (ctx : RiskCtx) (pos : Position) (outcomes : List Bool)
    (s : BetStream) : BetStream :=
  outcomes.foldl (fun t w => settleStream ctx w pos t) s

/-- Global mutable state of the service shared by the decision loop,
the settlement engine and the lock handler: `this.betHistory`,
`this.activeStreams`, `this.lastUsedStreamIndex`,
`this.streamCooldowns` (a record keyed by stream id; absent keys are
modelled as 0). -/
structure GlobalState where
  betHistory : List BetHistory
  streams : List BetStream
  lastUsedStreamIndex : Nat
  cooldowns : Nat → Nat

/-- Outcomes of the asynchronous calls made inside `placeBet`: the
wallet balance read, whether the `betBull`/`betBear` contract call
returns a transaction, whether `tx.wait(1)` succeeds. -/
structure TxEnv where
  balance : Nat
  submitOk : Bool
  waitOk : Bool
deriving Repr, DecidableEq

/-- Outcomes of the claim transactions attempted during a settlement
pass (`claimSingleBet`), keyed by stream id. -/
structure SettleEnv where
  claimOk : Nat → Bool

/-- The `availableStreams` filter of `selectStreamForBet`: active, not
already used for this epoch, and no ledger entry for
`(epoch, stream.id)`. -/
def availableStreams (st : GlobalState) (epoch : Nat) : List BetStream :=
  st.streams.filter fun s =>
    s.active && !(decide (s.lastEpoch = some epoch)) &&
      !(st.betHistory.any fun b =>
          decide (b.epoch = epoch) && decide (b.streamId = s.id))

/-- `selectStreamForBet(epoch)`: round-robin pick
`availableStreams[lastUsedStreamIndex % length]`, `null` when the
filtered list is empty (`x % 0 = x` makes `get?` return `none` then). -/
def selectStreamForBet (st : GlobalState) (epoch : Nat) : Option BetStream :=
  (availableStreams st epoch).get?
    (st.lastUsedStreamIndex % (availableStreams st epoch).length)

/-- `isRoundBettable(round)`: open betting phase at wall-clock `now`. -/
def isRoundBettable (now : Int) (round : Round) : Bool :=
  decide (round.startTimestamp ≤ now) &&
    decide (now < round.lockTimestamp) && !round.oracleCalled

/-- `hasExistingBet(epoch)`: some non-claimed ledger entry at `epoch`
(for any stream). -/
def hasExistingBet (history : List BetHistory) (epoch : Nat) : Bool :=
  history.any fun b => decide (b.epoch = epoch) && !b.claimed

/-- `isBettable(round)`: within the last `BET_SECONDS_BEFORE_END`
seconds before lock, still in the open phase, and no existing
non-claimed bet at the epoch. -/
def isBettable (now : Int) (round : Round)
    (history : List BetHistory) : Bool :=
  decide (now ≥ round.lockTimestamp - BET_SECONDS_BEFORE_END) &&
    decide (now < round.lockTimestamp) && isRoundBettable now round &&
    !(hasExistingBet history round.epoch)

/-- `placeBet(epoch, stream)`: skip on insufficient balance; a thrown
contract call is caught with no state change; once the call returns,
the ledger entry is pushed and `stream.lastEpoch` is set *before*
`tx.wait(1)`, so a confirmation failure (`waitOk = false`) is caught
only after both mutations. Streams are keyed by their unique id, which
models the in-place mutation of the selected stream object. -/
def placeBet (env : TxEnv) (epoch : Nat) (position : Position)
    (st : GlobalState) (stream : BetStream) : GlobalState :=
  if env.balance < stream.currentAmount then st
  else if !env.submitOk then st
  else
    { st with
      betHistory := st.betHistory ++
        [{ epoch := epoch, position := position,
           amount := stream.currentAmount, claimed := false,
           streamId := stream.id }],
      streams := st.streams.map fun s =>
        if s.id = stream.id then { s with lastEpoch := some epoch } else s }

/-- One body of the `setInterval` callback of `startBettingStrategy`
for a given betting target round: if the round is bettable, select a
stream (the successful selection increments `lastUsedStreamIndex`) and
invoke `placeBet`. -/
def tickPlace (env : TxEnv) (position : Position) (now : Int)
    (round : Round) (st : GlobalState) : GlobalState :=
  if isBettable now round st.betHistory then
    match selectStreamForBet st round.epoch with
    | some s =>
        placeBet env round.epoch position
          { st with lastUsedStreamIndex := st.lastUsedStreamIndex + 1 } s
    | none => st
  else st

/-- A successful claim in `claimSingleBet` marks the settled bet as
claimed in the ledger; the bet is identified by its
`(epoch, streamId)` key. -/
def markClaimed (history : List BetHistory) (epoch streamId : Nat) :
    List BetHistory :=
  history.map fun b =>
    if b.epoch = epoch ∧ b.streamId = streamId then
      { b with claimed := true }
    else b

/-- Replace the stream with id `s.id` by `s` — the in-place mutation of
the stream object found by `find`. -/
def updateStream (streams : List BetStream) (s : BetStream) :
    List BetStream :=
  streams.map fun t => if t.id = s.id then s else t

/-- One iteration of the `for (const bet of betsForRound)` loop of
`handleRoundResult`: find the stream, apply the stream/cooldown
transition, and on a win run `claimSingleBet` (skipped if already
claimed; a failed claim transaction leaves the flag unchanged). -/
def settleBetStep (ctx : RiskCtx) (env : SettleEnv) (round : Round)
    (st : GlobalState) (bet : BetHistory) : GlobalState :=
  match st.streams.find? (fun s => decide (s.id = bet.streamId)) with
  | none => st
  | some stream =>
      let isWin := checkSingleBetResult bet round
      let p := settleStreamCd ctx isWin bet.position
        (stream, st.cooldowns stream.id)
      { betHistory :=
          if isWin && !bet.claimed && env.claimOk bet.streamId then
            markClaimed st.betHistory bet.epoch bet.streamId
          else st.betHistory,
        streams := updateStream st.streams p.1,
        lastUsedStreamIndex := st.lastUsedStreamIndex,
        cooldowns := fun id =>
          if id = stream.id then p.2 else st.cooldowns id }

/-- `handleRoundResult(epoch)`: settle every ledger entry of the epoch
in order. -/
def settlePass (ctx : RiskCtx) (env : SettleEnv) (round : Round)
    (epoch : Nat) (st : GlobalState) : GlobalState :=
  (st.betHistory.filter fun b => decide (b.epoch = epoch)).foldl
    (settleBetStep ctx env round) st

/-- The `LockRound` handler's cooldown sweep: every positive cooldown
entry is decremented and a stream whose entry hits 0 is reactivated. -/
def lockPass (ctx : RiskCtx) (st : GlobalState) : GlobalState :=
  { st with
    streams := st.streams.map fun s =>
      (lockStream ctx (s, st.cooldowns s.id)).1,
    cooldowns := fun id =>
      if st.cooldowns id > 0 then st.cooldowns id - 1
      else st.cooldowns id }

/-- The state built by `onModuleInit`: `MAX_STREAMS` fresh streams with
ids 1.., an empty ledger, cursor 0, no cooldowns. -/
def initState (ctx : RiskCtx) : GlobalState :=
  { betHistory := [],
    streams := (List.range MAX_STREAMS).map fun i => initStream ctx (i + 1),
    lastUsedStreamIndex := 0,
    cooldowns := fun _ => 0 }

/-- One serialized event of the service: a decision-loop tick, an
`EndRound` settlement pass, or a `LockRound` cooldown sweep (the three
entry points that mutate the shared state). -/
inductive Step : GlobalState → GlobalState → Prop where
  | tick (env : TxEnv) (position : Position) (now : Int) (round : Round)
      (st : GlobalState) : Step st (tickPlace env position now round st)
  | settle (ctx : RiskCtx) (env : SettleEnv) (round : Round) (epoch : Nat)
      (st : GlobalState) : Step st (settlePass ctx env round epoch st)
  | lock (ctx : RiskCtx) (st : GlobalState) :
      Step st (lockPass ctx st)

/-- States reachable from some initial state by serialized events. -/
inductive Reachable : GlobalState → Prop where
  | init (ctx : RiskCtx) : Reachable (initState ctx)
  | step {st st' : GlobalState} : Reachable st → Step st st' →
      Reachable st'

/-- At most one ledger entry per `(epoch, streamId)` pair. -/
def uniquePairs (history : List BetHistory) : Prop :=
  history.Pairwise fun a b => a.epoch ≠ b.epoch ∨ a.streamId ≠ b.streamId

/-- The trailing-win-run length of a settlement outcome sequence: a
fold that counts wins and restarts from 0 at every loss. -/
def currentWinRun (outcomes : List Bool) : Nat :=
  outcomes.foldl (fun acc w => if w then acc + 1 else 0) 0

/-- A risk context with ample headroom: base 10, cap 1000000, bankroll
10000000, so no clamp binds on small escalations. -/
def ctxWide : RiskCtx := ⟨10, 1000000, 10000000⟩

/-- The stream state after `n` consecutive loss settlements of a fresh
stream under `ctxWide`. -/
def lossRun (n : Nat) : BetStream :=
  runSettles ctxWide Position.Bull (List.replicate n false) (initStream ctxWide 1)

/-- A small concrete risk context used by witnesses: base 10, cap 400,
bankroll 1000. -/
def ctxDemo : RiskCtx := ⟨10, 400, 1000⟩

/-- The risk context of the bankroll-protection failing input: base
100, bankroll 1000, cap `updateMaxBetAmount 1000 = 400`. -/
def ctxTight : RiskCtx := ⟨100, updateMaxBetAmount 1000, 1000⟩

/-- A stream one loss away from the deactivation threshold. -/
def streamEleven : BetStream :=
  { initStream ctxDemo 1 with consecutiveLosses := 11 }


/-- Claim C1, counterexample: with flat count 3, multiplier 2.1 and
base 10, already the third loss settlement escalates the amount to 21
(`lossCount = 3 ≥ FLAT_BET_COUNT` enters the escalation branch), so the
claimed value 10 after loss 3 is wrong. -/
theorem escalation_law_cex :
    (lossRun 3).currentAmount = 21 ∧ (lossRun 3).currentAmount ≠ 10 := by
  decide

/-- Claim C1, amended: with flat count 3, multiplier 2.1 and base 10
(clamps not binding), the next stake amount stays 10 after losses 1 and
2, becomes 21 after loss 3, 44 after loss 4 and 92 after loss 5 — the
escalation starts one loss earlier than the claim states, shifting the
whole sequence. -/
theorem escalation_law_amended :
    (lossRun 1).currentAmount = 10 ∧ (lossRun 2).currentAmount = 10 ∧
    (lossRun 3).currentAmount = 21 ∧ (lossRun 4).currentAmount = 44 ∧
    (lossRun 5).currentAmount = 92 := by
  decide

/-- Claim C2, code bug: with bankroll 1000, cap 400 (40%) and base 100,
a stream in the escalating state (lossCount = 3) gets next amount 400 =
`maxBetAmount`, although `min(maxBetAmount, bankroll / 10) = 100`: when
the 10%-of-bankroll protection triggers, the code returns
`maxBetAmount` (40% of bankroll) instead of the 10% bound its own
comment announces, so the result is not clamped to the minimum of the
two ceilings. -/
theorem bankroll_protection_bug :
    calculateNextBetAmount ctxTight { initStream ctxTight 1 with lossCount := 3 }
        = ctxTight.maxBetAmount ∧
    ctxTight.maxBetAmount = 400 ∧
    min ctxTight.maxBetAmount (ctxTight.totalBankroll / 10) = 100 ∧
    ¬(calculateNextBetAmount ctxTight { initStream ctxTight 1 with lossCount := 3 }
        ≤ min ctxTight.maxBetAmount (ctxTight.totalBankroll / 10)) := by
  decide

/-- Claim C3, counterexample: a bet whose transaction is submitted but
never confirmed (`tx.wait(1)` fails, `waitOk = false`) still adds a
ledger entry and still sets the stream's `lastEpoch`, because both
mutations happen before the `await tx.wait(1)` — so not every failure
before confirmation leaves the ledger and stream state unchanged. -/
theorem placeBet_wait_failure_cex :
    (placeBet ⟨100, true, false⟩ 7 Position.Bull (initState ctxDemo)
        (initStream ctxDemo 1)).betHistory ≠ (initState ctxDemo).betHistory ∧
    (placeBet ⟨100, true, false⟩ 7 Position.Bull (initState ctxDemo)
        (initStream ctxDemo 1)).streams ≠ (initState ctxDemo).streams ∧
    (⟨100, true, false⟩ : TxEnv).waitOk = false := by
  decide

/-- Claim C3, amended: if the failure occurs before the transaction is
submitted — the balance check fails or the `betBull`/`betBear` call
throws — then `placeBet` leaves the ledger and all stream state
unchanged; a failure of the confirmation wait, by contrast, happens
after the ledger entry and `lastEpoch` are already written. -/
theorem placeBet_prefail_unchanged (env : TxEnv) (epoch : Nat)
    (pos : Position) (st : GlobalState) (s : BetStream)
    (h : env.balance < s.currentAmount ∨ env.submitOk = false) :
    placeBet env epoch pos st s = st := by
  rcases h with h | h
  · simp [placeBet, h]
  · by_cases hb : env.balance < s.currentAmount
    · simp [placeBet, hb]
    · simp [placeBet, hb, h]

/-- Witness for `placeBet_prefail_unchanged` at balance 0 against a
stake of 10. -/
theorem placeBet_prefail_unchanged_witness :
    placeBet ⟨0, true, true⟩ 7 Position.Bull (initState ctxDemo)
      (initStream ctxDemo 1) = initState ctxDemo :=
  placeBet_prefail_unchanged _ _ _ _ _ (Or.inl (by decide))

/-- Claim C4, counterexample: after a win the stream amount is reset to
the base amount with no comparison against `maxBetAmount`; with base
100 and cap 4 (bankroll 10) the post-settlement `currentAmount` is 100,
above the cap. -/
theorem settlement_cap_cex :
    (settleStream ⟨100, 4, 10⟩ true Position.Bull
        (initStream ⟨100, 4, 10⟩ 1)).currentAmount = 100 ∧
    ¬((settleStream ⟨100, 4, 10⟩ true Position.Bull
        (initStream ⟨100, 4, 10⟩ 1)).currentAmount
      ≤ (⟨100, 4, 10⟩ : RiskCtx).maxBetAmount) := by
  decide

/-- In the escalation loop, once the accumulator is at or below the cap
it stays there: every return path either hands back `maxBetAmount`
itself or a value that passed the cap check. -/
lemma escalateLoop_le_of_le (ctx : RiskCtx) :
    ∀ n x, x ≤ ctx.maxBetAmount → escalateLoop ctx n x ≤ ctx.maxBetAmount := by
  intro n
  induction n with
  | zero => intro x h; simpa [escalateLoop] using h
  | succ m ih =>
      intro x h
      by_cases h1 : x * MARTINGALE_MULTIPLIER / 10 > ctx.maxBetAmount
      · simp [escalateLoop, h1]
      · by_cases h2 : x * MARTINGALE_MULTIPLIER / 10 > ctx.totalBankroll / 10
        · simp [escalateLoop, h1, h2]
        · simp only [escalateLoop, if_neg h1, if_neg h2]
          exact ih _ (by omega)

/-- The escalation loop runs at least one iteration, so its result is
bounded by `maxBetAmount` for any starting value. -/
lemma escalateLoop_succ_le (ctx : RiskCtx) (n x : Nat) :
    escalateLoop ctx (n + 1) x ≤ ctx.maxBetAmount := by
  by_cases h1 : x * MARTINGALE_MULTIPLIER / 10 > ctx.maxBetAmount
  · simp [escalateLoop, h1]
  · by_cases h2 : x * MARTINGALE_MULTIPLIER / 10 > ctx.totalBankroll / 10
    · simp [escalateLoop, h1, h2]
    · simp only [escalateLoop, if_neg h1, if_neg h2]
      exact escalateLoop_le_of_le ctx n _ (by omega)

/-- The next stake amount is capped whenever the base amount is. -/
lemma calculateNextBetAmount_le (ctx : RiskCtx) (s : BetStream)
    (h : calculateBaseBetAmount ctx ≤ ctx.maxBetAmount) :
    calculateNextBetAmount ctx s ≤ ctx.maxBetAmount := by
  by_cases hl : s.lossCount ≥ FLAT_BET_COUNT
  · simp only [calculateNextBetAmount, STRATEGY_TYPE, if_pos hl]
    exact escalateLoop_succ_le ctx _ _
  · simp only [calculateNextBetAmount, STRATEGY_TYPE, if_neg hl]
    exact h

/-- Claim C4, amended: after any settlement of one of its bets, a
stream's `currentAmount` is at most `maxBetAmount`, provided the base
amount itself does not exceed the cap — the win branch and the flat
loss branch reset to the raw base amount with no clamp, so the
invariant needs `calculateBaseBetAmount ≤ maxBetAmount` as a
hypothesis. -/
theorem settlement_cap_amended (ctx : RiskCtx) (isWin : Bool)
    (pos : Position) (s : BetStream)
    (h : calculateBaseBetAmount ctx ≤ ctx.maxBetAmount) :
    (settleStream ctx isWin pos s).currentAmount ≤ ctx.maxBetAmount := by
  cases isWin with
  | true => simp [settleStream]; exact h
  | false =>
      simp only [settleStream, Bool.false_eq_true, if_false]
      split <;> exact calculateNextBetAmount_le ctx _ h

/-- Witness for `settlement_cap_amended` under `ctxDemo` (base 10 ≤ cap
400), at a loss settlement of a fresh stream. -/
theorem settlement_cap_amended_witness :
    calculateBaseBetAmount ctxDemo ≤ ctxDemo.maxBetAmount ∧
    (settleStream ctxDemo false Position.Bull
        (initStream ctxDemo 1)).currentAmount ≤ ctxDemo.maxBetAmount :=
  ⟨by decide, settlement_cap_amended ctxDemo false Position.Bull
    (initStream ctxDemo 1) (by decide)⟩

/-- A stream returned by `selectStreamForBet` for an epoch has no
ledger entry for that `(epoch, streamId)` pair: it came from the
`availableStreams` filter. -/
lemma select_not_in_history (st : GlobalState) (e : Nat) (s : BetStream)
    (h : selectStreamForBet st e = some s) :
    ∀ b ∈ st.betHistory, b.epoch ≠ e ∨ b.streamId ≠ s.id := by
  have hmem : s ∈ availableStreams st e := List.get?_mem h
  have hp := (List.mem_filter.mp hmem).2
  simp only [Bool.and_eq_true, Bool.not_eq_true'] at hp
  obtain ⟨⟨-, -⟩, hany⟩ := hp
  intro b hb
  by_contra hc
  push_neg at hc
  obtain ⟨he, hs⟩ := hc
  have hone : (st.betHistory.any fun b =>
      decide (b.epoch = e) && decide (b.streamId = s.id)) = true :=
    List.any_eq_true.mpr ⟨b, hb, by simp [he, hs]⟩
  rw [hany] at hone
  exact Bool.noConfusion hone

/-- A decision-loop tick preserves per-pair uniqueness of the ledger:
the only appended entry carries a pair the selection filter proved
absent. -/
lemma tickPlace_unique (env : TxEnv) (pos : Position) (now : Int)
    (round : Round) (st : GlobalState) (h : uniquePairs st.betHistory) :
    uniquePairs (tickPlace env pos now round st).betHistory := by
  unfold tickPlace
  split
  · cases hsel : selectStreamForBet st round.epoch with
    | none => simpa [hsel] using h
    | some s =>
        simp only [hsel]
        unfold placeBet
        split
        · exact h
        · split
          · exact h
          · simp only
            unfold uniquePairs
            rw [List.pairwise_append]
            refine ⟨h, List.pairwise_singleton _ _, ?_⟩
            intro a ha b hb
            simp only [List.mem_singleton] at hb
            subst hb
            exact select_not_in_history st round.epoch s hsel a ha
  · exact h

/-- Marking a bet claimed changes no `(epoch, streamId)` key, so it
preserves per-pair uniqueness. -/
lemma markClaimed_unique (history : List BetHistory) (e i : Nat)
    (h : uniquePairs history) : uniquePairs (markClaimed history e i) := by
  unfold markClaimed
  refine h.map _ (fun a b hab => ?_)
  have keys : ∀ c : BetHistory,
      ((if c.epoch = e ∧ c.streamId = i then { c with claimed := true }
        else c) : BetHistory).epoch = c.epoch ∧
      ((if c.epoch = e ∧ c.streamId = i then { c with claimed := true }
        else c) : BetHistory).streamId = c.streamId := by
    intro c
    split <;> exact ⟨rfl, rfl⟩
  rcases hab with hab | hab
  · left; rw [(keys a).1, (keys b).1]; exact hab
  · right; rw [(keys a).2, (keys b).2]; exact hab

/-- One settlement iteration touches the ledger only through
`markClaimed`. -/
lemma settleBetStep_unique (ctx : RiskCtx) (env : SettleEnv) (round : Round)
    (st : GlobalState) (bet : BetHistory) (h : uniquePairs st.betHistory) :
    uniquePairs (settleBetStep ctx env round st bet).betHistory := by
  unfold settleBetStep
  cases hf : st.streams.find? (fun s => decide (s.id = bet.streamId)) with
  | none => exact h
  | some stream =>
      simp only
      split
      · exact markClaimed_unique _ _ _ h
      · exact h

/-- Folding settlement iterations preserves ledger uniqueness. -/
lemma settleFold_unique (ctx : RiskCtx) (env : SettleEnv) (round : Round) :
    ∀ (bets : List BetHistory) (st : GlobalState),
    uniquePairs st.betHistory →
    uniquePairs ((bets.foldl (settleBetStep ctx env round) st)).betHistory := by
  intro bets
  induction bets with
  | nil => intro st h; exact h
  | cons b rest ih =>
      intro st h
      simp only [List.foldl_cons]
      exact ih _ (settleBetStep_unique ctx env round st b h)

/-- A full settlement pass preserves ledger uniqueness. -/
lemma settlePass_unique (ctx : RiskCtx) (env : SettleEnv) (round : Round)
    (epoch : Nat) (st : GlobalState) (h : uniquePairs st.betHistory) :
    uniquePairs (settlePass ctx env round epoch st).betHistory :=
  settleFold_unique ctx env round _ st h

/-- Claim C5: in every state reachable from initialization by any
interleaving of serialized decision-loop ticks, settlement passes and
lock-event sweeps, the bet ledger holds at most one entry per
`(epoch, streamId)` pair — placement via `selectStreamForBet` plus
`placeBet` never creates a second stake for a pair, and settlement and
cooldown processing never create entries at all. -/
theorem ledger_epoch_stream_unique (st : GlobalState)
    (h : Reachable st) : uniquePairs st.betHistory := by
  induction h with
  | init ctx => exact List.Pairwise.nil
  | step hr hs ih =>
      cases hs with
      | tick env pos now round => exact tickPlace_unique env pos now round _ ih
      | settle ctx env round epoch =>
          exact settlePass_unique ctx env round epoch _ ih
      | lock ctx => exact ih

/-- Witness for `ledger_epoch_stream_unique` at the initial state. -/
theorem ledger_epoch_stream_unique_witness :
    uniquePairs (initState ctxDemo).betHistory :=
  ledger_epoch_stream_unique _ (Reachable.init ctxDemo)

/-- Claim C6: a loss settlement that brings `consecutiveLosses` to the
configured maximum deactivates the stream and arms its cooldown entry
to `STREAM_COOLDOWN_ROUNDS` (5); exactly 5 subsequent round-lock events
reactivate any stream — active again, amount reset to base, `lossCount`
and `consecutiveLosses` 0 — while fewer than 5 leave the stream
untouched with the counter decremented once per event, and a zero
counter is never decremented. -/
theorem deactivation_cooldown_cycle (ctx : RiskCtx) (pos : Position)
    (s : BetStream) (cd : Nat)
    (h : s.consecutiveLosses + 1 ≥ MAX_CONSECUTIVE_LOSSES) :
    ((settleStreamCd ctx false pos (s, cd)).1.active = false ∧
     (settleStreamCd ctx false pos (s, cd)).2 = STREAM_COOLDOWN_ROUNDS) ∧
    (∀ t : BetStream,
      (lockIter ctx STREAM_COOLDOWN_ROUNDS (t, STREAM_COOLDOWN_ROUNDS)).1.active
        = true ∧
      (lockIter ctx STREAM_COOLDOWN_ROUNDS (t, STREAM_COOLDOWN_ROUNDS)).1.currentAmount
        = calculateBaseBetAmount ctx ∧
      (lockIter ctx STREAM_COOLDOWN_ROUNDS (t, STREAM_COOLDOWN_ROUNDS)).1.lossCount
        = 0 ∧
      (lockIter ctx STREAM_COOLDOWN_ROUNDS (t, STREAM_COOLDOWN_ROUNDS)).1.consecutiveLosses
        = 0 ∧
      (∀ k, k < STREAM_COOLDOWN_ROUNDS →
        (lockIter ctx k (t, STREAM_COOLDOWN_ROUNDS)).1 = t ∧
        (lockIter ctx k (t, STREAM_COOLDOWN_ROUNDS)).2
          = STREAM_COOLDOWN_ROUNDS - k)) ∧
    (∀ t : BetStream, lockStream ctx (t, 0) = (t, 0)) := by
  refine ⟨⟨?_, ?_⟩, ?_, ?_⟩
  · simp only [settleStreamCd, settleStream]
    simp only [Bool.false_eq_true, if_false]
    simp [h]
  · simp [settleStreamCd, h]
  · intro t
    refine ⟨rfl, rfl, rfl, rfl, ?_⟩
    intro k hk
    simp only [STREAM_COOLDOWN_ROUNDS] at hk
    interval_cases k <;> exact ⟨rfl, rfl⟩
  · intro t
    rfl

/-- Witness for `deactivation_cooldown_cycle`: the twelfth consecutive
loss of `streamEleven` deactivates it and arms a 5-round cooldown. -/
theorem deactivation_cooldown_cycle_witness :
    (settleStreamCd ctxDemo false Position.Bull (streamEleven, 0)).1.active
      = false ∧
    (settleStreamCd ctxDemo false Position.Bull (streamEleven, 0)).2
      = STREAM_COOLDOWN_ROUNDS :=
  (deactivation_cooldown_cycle ctxDemo Position.Bull streamEleven 0
    (by decide)).1

/-- Claim C7: a win settlement resets `lossCount` and
`consecutiveLosses` to 0 and `currentAmount` to the base amount, for
every prior stream state — the result of these three fields does not
depend on the prior streak. -/
theorem win_reset_law (ctx : RiskCtx) (pos : Position) (s : BetStream) :
    (settleStream ctx true pos s).lossCount = 0 ∧
    (settleStream ctx true pos s).consecutiveLosses = 0 ∧
    (settleStream ctx true pos s).currentAmount = calculateBaseBetAmount ctx := by
  simp [settleStream]

/-- Claim C8: once the oracle has reported, a bet wins iff it is a Bull
bet with `closePrice > lockPrice` or a Bear bet with
`closePrice < lockPrice`; a push (`closePrice = lockPrice`) is
classified as a loss and drives the loss branch of the stream update,
incrementing both `consecutiveLosses` and `lossCount`. -/
theorem settlement_outcome_rule (ctx : RiskCtx) (bet : BetHistory)
    (round : Round) (s : BetStream) (h : round.oracleCalled = true) :
    (checkSingleBetResult bet round = true ↔
      ((bet.position = Position.Bull ∧ round.closePrice > round.lockPrice) ∨
       (bet.position = Position.Bear ∧ round.closePrice < round.lockPrice))) ∧
    (round.closePrice = round.lockPrice →
      checkSingleBetResult bet round = false ∧
      (settleStream ctx (checkSingleBetResult bet round) bet.position
        s).consecutiveLosses = s.consecutiveLosses + 1 ∧
      (settleStream ctx (checkSingleBetResult bet round) bet.position
        s).lossCount = s.lossCount + 1) := by
  have hiff : checkSingleBetResult bet round = true ↔
      ((bet.position = Position.Bull ∧ round.closePrice > round.lockPrice) ∨
       (bet.position = Position.Bear ∧ round.closePrice < round.lockPrice)) := by
    simp [checkSingleBetResult, h]
  refine ⟨hiff, fun hpush => ?_⟩
  have hfalse : checkSingleBetResult bet round = false := by
    rw [Bool.eq_false_iff]
    intro hc
    rcases hiff.mp hc with ⟨-, hlt⟩ | ⟨-, hlt⟩ <;> omega
  refine ⟨hfalse, ?_, ?_⟩ <;>
    · rw [hfalse]
      simp only [settleStream, Bool.false_eq_true, if_false]
      split <;> rfl

/-- Witness for `settlement_outcome_rule`: a push round
(`lockPrice = closePrice = 50`) settles a Bull bet as a loss and
increments both loss counters of a fresh stream. -/
theorem settlement_outcome_rule_witness :
    checkSingleBetResult ⟨9, Position.Bull, 10, false, 1⟩
        ⟨9, 0, 100, 200, 50, 50, 0, 0, 0, true⟩ = false ∧
    (settleStream ctxDemo
      (checkSingleBetResult ⟨9, Position.Bull, 10, false, 1⟩
        ⟨9, 0, 100, 200, 50, 50, 0, 0, 0, true⟩)
      Position.Bull (initStream ctxDemo 1)).consecutiveLosses
      = (initStream ctxDemo 1).consecutiveLosses + 1 ∧
    (settleStream ctxDemo
      (checkSingleBetResult ⟨9, Position.Bull, 10, false, 1⟩
        ⟨9, 0, 100, 200, 50, 50, 0, 0, 0, true⟩)
      Position.Bull (initStream ctxDemo 1)).lossCount
      = (initStream ctxDemo 1).lossCount + 1 :=
  (settlement_outcome_rule ctxDemo ⟨9, Position.Bull, 10, false, 1⟩
    ⟨9, 0, 100, 200, 50, 50, 0, 0, 0, true⟩ (initStream ctxDemo 1) rfl).2 rfl

/-- Claim C9: for a round in its open betting phase with no existing
non-claimed bet at its epoch, `isBettable` holds exactly on the window
`[lockTimestamp - 8, lockTimestamp)`; at `now = lockTimestamp` and at
`now = lockTimestamp - 9` it is false (the latter two uncondition-
ally). -/
theorem bet_window_correct (now : Int) (round : Round)
    (history : List BetHistory)
    (h1 : round.startTimestamp ≤ now)
    (h2 : round.oracleCalled = false)
    (h3 : hasExistingBet history round.epoch = false) :
    (isBettable now round history = true ↔
      (round.lockTimestamp - BET_SECONDS_BEFORE_END ≤ now ∧
       now < round.lockTimestamp)) ∧
    isBettable round.lockTimestamp round history = false ∧
    isBettable (round.lockTimestamp - 9) round history = false := by
  refine ⟨?_, ?_, ?_⟩
  · simp [isBettable, isRoundBettable, h1, h2, h3, BET_SECONDS_BEFORE_END]
  · simp [isBettable]
  · simp [isBettable, BET_SECONDS_BEFORE_END]
    intro hc
    exact absurd hc (by omega)

/-- Witness for `bet_window_correct` at `lockTimestamp = 100`,
`now = 95`, an empty ledger and an open round. -/
theorem bet_window_correct_witness :
    (isBettable 95 ⟨3, 0, 100, 200, 0, 0, 0, 0, 0, false⟩ [] = true ↔
      ((100 : Int) - BET_SECONDS_BEFORE_END ≤ 95 ∧ (95 : Int) < 100)) ∧
    isBettable 100 ⟨3, 0, 100, 200, 0, 0, 0, 0, 0, false⟩ [] = false ∧
    isBettable (100 - 9) ⟨3, 0, 100, 200, 0, 0, 0, 0, 0, false⟩ [] = false :=
  bet_window_correct 95 ⟨3, 0, 100, 200, 0, 0, 0, 0, 0, false⟩ []
    (by decide) rfl rfl

/-- The per-settlement `winCount` update: incremented on a win, reset
to 0 on a loss. -/
lemma settleStream_winCount (ctx : RiskCtx) (pos : Position)
    (s : BetStream) (w : Bool) :
    (settleStream ctx w pos s).winCount = if w then s.winCount + 1 else 0 := by
  cases w with
  | true => simp [settleStream]
  | false =>
      simp only [settleStream, Bool.false_eq_true, if_false]
      split <;> rfl

/-- `totalWins` never decreases across a settlement. -/
lemma settleStream_totalWins_le (ctx : RiskCtx) (pos : Position)
    (s : BetStream) (w : Bool) :
    s.totalWins ≤ (settleStream ctx w pos s).totalWins := by
  cases w with
  | true => simp [settleStream]
  | false =>
      have : (settleStream ctx false pos s).totalWins = s.totalWins := by
        simp only [settleStream, Bool.false_eq_true, if_false]
        split <;> rfl
      omega

/-- `winCount` after a settlement run is the win-counting fold of the
outcome sequence started from the prior `winCount`. -/
lemma runSettles_winCount (ctx : RiskCtx) (pos : Position) :
    ∀ (outcomes : List Bool) (s : BetStream),
    (runSettles ctx pos outcomes s).winCount =
      outcomes.foldl (fun acc w => if w then acc + 1 else 0) s.winCount := by
  intro outcomes
  induction outcomes with
  | nil => intro s; rfl
  | cons w rest ih =>
      intro s
      simp only [runSettles, List.foldl_cons] at ih ⊢
      rw [ih, settleStream_winCount]

/-- Once the outcome sequence contains a loss, the win-counting fold
forgets its starting value. -/
lemma winCountFold_of_mem_false :
    ∀ (l : List Bool), false ∈ l → ∀ a b : Nat,
    l.foldl (fun acc w => if w then acc + 1 else 0) a =
      l.foldl (fun acc w => if w then acc + 1 else 0) b := by
  intro l
  induction l with
  | nil => intro h; cases h
  | cons w rest ih =>
      intro h a b
      simp only [List.foldl_cons]
      by_cases hr : false ∈ rest
      · exact ih hr _ _
      · have hw : w = false := by
          rcases List.mem_cons.mp h with hw | hw
          · exact hw.symm
          · exact absurd hw hr
        subst hw
        rfl

/-- `totalWins` never decreases across a settlement run. -/
lemma runSettles_totalWins_le (ctx : RiskCtx) (pos : Position) :
    ∀ (outcomes : List Bool) (s : BetStream),
    s.totalWins ≤ (runSettles ctx pos outcomes s).totalWins := by
  intro outcomes
  induction outcomes with
  | nil => intro s; exact le_refl _
  | cons w rest ih =>
      intro s
      simp only [runSettles, List.foldl_cons] at ih ⊢
      exact le_trans (settleStream_totalWins_le ctx pos s w) (ih _)

/-- Claim C10: every loss settlement resets `winCount` to 0 and every
win increments it, so after any settlement run that contains at least
one loss, `winCount` equals the length of the trailing run of
consecutive wins since the last loss — whatever `winCount` the stream
started with — while `totalWins` is monotonically non-decreasing over
the run. -/
theorem win_count_run_law (ctx : RiskCtx) (pos : Position) (s : BetStream)
    (outcomes : List Bool) (h : false ∈ outcomes) :
    (settleStream ctx false pos s).winCount = 0 ∧
    (settleStream ctx true pos s).winCount = s.winCount + 1 ∧
    s.totalWins ≤ (runSettles ctx pos outcomes s).totalWins ∧
    (runSettles ctx pos outcomes s).winCount = currentWinRun outcomes := by
  refine ⟨settleStream_winCount ctx pos s false,
          settleStream_winCount ctx pos s true,
          runSettles_totalWins_le ctx pos outcomes s, ?_⟩
  rw [runSettles_winCount]
  exact winCountFold_of_mem_false outcomes h s.winCount 0

/-- Witness for `win_count_run_law`: a stream with a stale `winCount`
of 7 settled over win, loss, win, win ends at `winCount = 2`, the
trailing run length. -/
theorem win_count_run_law_witness :
    (settleStream ctxDemo false Position.Bull
        { initStream ctxDemo 1 with winCount := 7 }).winCount = 0 ∧
    (settleStream ctxDemo true Position.Bull
        { initStream ctxDemo 1 with winCount := 7 }).winCount = 7 + 1 ∧
    ({ initStream ctxDemo 1 with winCount := 7 } : BetStream).totalWins ≤
      (runSettles ctxDemo Position.Bull [true, false, true, true]
        { initStream ctxDemo 1 with winCount := 7 }).totalWins ∧
    (runSettles ctxDemo Position.Bull [true, false, true, true]
        { initStream ctxDemo 1 with winCount := 7 }).winCount
      = currentWinRun [true, false, true, true] :=
  win_count_run_law ctxDemo Position.Bull
    { initStream ctxDemo 1 with winCount := 7 } [true, false, true, true]
    (by decide)
